import Mathlib

/-!
Verification of the DialogScript embedded-code extraction and reinsertion
engine (`houdini_package_runner.items.dialog_script`).

Container text is modelled as `List Char`.  Python integer offsets are
modelled as `Int`, and Python string slicing (with its clamping and
negative-index semantics) is modelled explicitly by `pyBound`/`pySlice`.

The pyparsing grammar matchers are third-party library calls; their results
for one parameter block are modelled abstractly by the `ParmData` record
(the list of `name` matches, callback-language matches, located callback
script matches, located default-expression matches, and the computed menu
script data of `_get_python_menu_script`).  All functions of the repository
itself are translated from the source.  A constructor that raises in Python
(the `searchString(parm)[0]` IndexError when the `name` token is absent) is
modelled as returning `none`, and the extraction pipeline propagates that
failure through `Option`.
-/

abbrev Text := List Char

/-- Python slice bound resolution for index `i` on a string of length
`len`: negative indices count from the end, and bounds are clamped into
`[0, len]`. -/
def pyBound (len : Nat) (i : Int) : Nat :=
  if i < 0 then ((len : Int) + i).toNat else min i.toNat len

/-- Python slice `s[a:b]`. -/
def pySlice (s : Text) (a b : Int) : Text :=
  (s.take (pyBound s.length b)).drop (pyBound s.length a)

/-- Python slice `s[a:]`. -/
def pySliceFrom (s : Text) (a : Int) : Text :=
  s.drop (pyBound s.length a)

/-- `_get_ds_file_offset`: translate a block-relative match span into
absolute file offsets.  When `inclusive` is false (the default) the span
shrinks by one character on each side. -/
def _get_ds_file_offset (parm_start : Int) (span : Int × Int)
    (inclusive : Bool := false) : Int × Int :=
  let extra_offset : Int := if inclusive then 0 else 1
  (parm_start + span.1 + extra_offset, parm_start + span.2 - extra_offset)

/-- `PythonMenuScriptResult`: the named tuple holding menu script
information. -/
structure PythonMenuScriptResult where
  menu_script : Text
  span : Nat × Nat
  indent : Nat
  uses_tabs : Bool
deriving DecidableEq

/-- The kind of a `DialogScriptInternalItem` (the concrete Python
subclass); `menuScript` carries the menu script data stored on
`DialogScriptMenuScriptItem`. -/
inductive ItemKind where
  | base : ItemKind
  | callback : ItemKind
  | defaultExpr : ItemKind
  | menuScript : PythonMenuScriptResult → ItemKind
deriving DecidableEq

/-- State of a `DialogScriptInternalItem`.  `display_name` is the stored
`_display_name` attribute; `contents_changed` and `is_single_line` come
from `BaseItem` (both initialized `False`). -/
structure DialogScriptInternalItem where
  parm : Text
  code : Text
  start_offset : Int
  end_offset : Int
  name : Text
  display_name : Text
  display_hint : Text
  is_single_line : Bool
  write_back : Bool
  contents_changed : Bool
  post_processed_code : Text
  kind : ItemKind
deriving DecidableEq

/-- The `display_name` property: the stored display name, with `"__"` and
the display hint appended when the hint is non-empty (Python string
truthiness). -/
def displayName (self : DialogScriptInternalItem) : Text :=
  if self.display_hint.isEmpty then self.display_name
  else self.display_name ++ ("__").toList ++ self.display_hint

/-- The temp file name used by `DialogScriptInternalItem.process`:
`self.display_name` followed by `".py"`. -/
def tempFileName (self : DialogScriptInternalItem) : Text :=
  displayName self ++ (".py").toList

/-- Stable insertion of an item into a list already sorted by
`start_offset`; together with `sortByStart` this models Python's stable
`list.sort(key=operator.attrgetter("start_offset"))`. -/
def insertByStart (x : DialogScriptInternalItem) :
    List DialogScriptInternalItem → List DialogScriptInternalItem
  | [] => [x]
  | y :: ys =>
    if x.start_offset ≤ y.start_offset then x :: y :: ys
    else y :: insertByStart x ys

/-- Stable sort by ascending `start_offset`. -/
def sortByStart : List DialogScriptInternalItem → List DialogScriptInternalItem
  | [] => []
  | x :: xs => insertByStart x (sortByStart xs)

/-- The splice loop of `_handle_changed_contents`: keep the original text
before each item's start, its post-processed code in place of its span, and
the original tail after the last item. -/
def spliceLoop (ds : Text) : Int → List DialogScriptInternalItem → Text
  | script_offset, [] => pySliceFrom ds script_offset
  | script_offset, item :: rest =>
    pySlice ds script_offset item.start_offset ++ item.post_processed_code ++
      spliceLoop ds item.end_offset rest

/-- `DialogScriptItem._handle_changed_contents` restricted to producing the
new dialog script text: sort the changed items by `start_offset` and splice
their post-processed code into the original contents. -/
def _handle_changed_contents (ds_contents : Text)
    (items_with_changed_contents : List DialogScriptInternalItem) : Text :=
  spliceLoop ds_contents 0 (sortByStart items_with_changed_contents)

/-- Replace every occurrence of the single character `c` in `l` by the
string `r` (Python `str.replace` with a one-character pattern). -/
def replaceChar (l : Text) (c : Char) (r : Text) : Text :=
  match l with
  | [] => []
  | x :: xs => (if x = c then r else [x]) ++ replaceChar xs c r

/-- `_escape_contents_for_single_line`: escape `\r`, `\n` and `"` by the
chained `str.replace` calls of the source. -/
def _escape_contents_for_single_line (contents : Text) : Text :=
  replaceChar
    (replaceChar (replaceChar contents '\r' ("\\r").toList) '\n'
      ("\\n").toList)
    '"' ("\\\"").toList

/-- The per-character escaping map claimed by the specification: `\r` to
backslash-r, `\n` to backslash-n, `"` to backslash-quote, all other
characters unchanged.  Stated from the spec for comparison with
`_escape_contents_for_single_line`. -/
def escCharSpec (c : Char) : Text :=
  if c = '\r' then ("\\r").toList
  else if c = '\n' then ("\\n").toList
  else if c = '"' then ("\\\"").toList
  else [c]

/-- `contents.endswith("\n")`. -/
def endsWithNewline (t : Text) : Bool := t.getLast? == some '\n'

/-- `DialogScriptInternalItem._load_contents`, with the temp file read
modelled by passing the file's contents: strip one final newline if
present, then escape when the item is single-line. -/
def DialogScriptInternalItem._load_contents
    (self : DialogScriptInternalItem) (temp_contents : Text) : Text :=
  let contents :=
    if endsWithNewline temp_contents then temp_contents.dropLast
    else temp_contents
  if self.is_single_line then _escape_contents_for_single_line contents
  else contents

/-- `DialogScriptInternalItem._write_contents`, returning the text written
to the temp file: the item's code, with a newline appended when the code
does not already end with one. -/
def DialogScriptInternalItem._write_contents
    (self : DialogScriptInternalItem) : Text :=
  if endsWithNewline self.code then self.code else self.code ++ ['\n']

/-- The line-boundary characters of Python `str.splitlines`. -/
def isLineBoundary (c : Char) : Bool :=
  c == '\n' || c == '\r' || c == '\x0b' || c == '\x0c' ||
  c == '\x1c' || c == '\x1d' || c == '\x1e' || c == '\x85' ||
  c == '\u2028' || c == '\u2029'

/-- Accumulator-based worker for `splitlines`; `\r\n` counts as a single
boundary, and a trailing boundary does not produce a final empty line. -/
def splitlinesAux : Text → Text → List Text
  | [], acc => if acc.isEmpty then [] else [acc.reverse]
  | '\r' :: '\n' :: rest, acc => acc.reverse :: splitlinesAux rest []
  | c :: rest, acc =>
    if isLineBoundary c then acc.reverse :: splitlinesAux rest []
    else splitlinesAux rest (c :: acc)

/-- Python `contents.splitlines()`. -/
def splitlines (contents : Text) : List Text := splitlinesAux contents []

/-- The emitted wrapper for one menu script line: `[ "<line>" ]` plus a
newline. -/
def wrapMenuLine (line : Text) : Text :=
  ("[ \"").toList ++ line ++ ("\" ]\n").toList

/-- The reconstructed indentation of a menu script: the indent character
(tab when `uses_tabs`, else a space) repeated `indent` times. -/
def indentText (data : PythonMenuScriptResult) : Text :=
  List.replicate data.indent (if data.uses_tabs then '\t' else ' ')

/-- The enumerate-loop of `DialogScriptMenuScriptItem._post_process_contents`:
each line is emitted as `[ "<line>" ]` plus a newline, prefixed by the
indent except at index 0. -/
def menuLineLoop (indent : Text) : Nat → List Text → Text
  | _, [] => []
  | i, line :: rest =>
    ((if i == 0 then [] else indent) ++ wrapMenuLine line) ++
      menuLineLoop indent (i + 1) rest

/-- `_post_process_contents`: the base implementation returns the contents
unchanged; `DialogScriptMenuScriptItem` overrides it with the per-line
menu re-encoding. -/
def DialogScriptInternalItem._post_process_contents
    (self : DialogScriptInternalItem) (contents : Text) : Text :=
  match self.kind with
  | ItemKind.menuScript data =>
    menuLineLoop (indentText data) 0 (splitlines contents)
  | _ => contents

/-- The processing collaborator (`runner.process_path`): given the temp
file name, the temp file contents just written, and the associated item,
it returns a status code and the (possibly mutated) temp file contents. -/
def Collaborator : Type :=
  Text → Text → DialogScriptInternalItem → Nat × Text

/-- `DialogScriptInternalItem.process`: write the code to the temp file,
run the collaborator on it, and under write-back reload the contents,
compare with the original code, and on a difference mark the item changed
and store the post-processed replacement. -/
def DialogScriptInternalItem.process (self : DialogScriptInternalItem)
    (runner : Collaborator) : Nat × DialogScriptInternalItem :=
  let temp_path := tempFileName self
  let written := self._write_contents
  let run := runner temp_path written self
  let result := run.1
  if self.write_back then
    let contents := self._load_contents run.2
    if self.code ≠ contents then
      (result,
        { self with
          contents_changed := true
          post_processed_code := self._post_process_contents contents })
    else (result, self)
  else (result, self)

/-- A located quoted-string match of a pyparsing `locatedExpr` (callback
script): start offset, matched text, end offset, all relative to the
searched block. -/
structure LocatedMatch where
  start_pos : Nat
  text : Text
  end_pos : Nat
deriving DecidableEq

/-- A located default-expression match: offsets, expression text and the
trailing language token. -/
structure DefaultExprMatch where
  start_pos : Nat
  expr : Text
  end_pos : Nat
  lang : Text
deriving DecidableEq

/-- The pyparsing matcher results for one parameter block: the block's raw
text, the `name` grammar matches, the callback-language matches, the
located callback-script matches, the located default-expression matches,
and the menu script data computed by `_get_python_menu_script`. -/
structure ParmData where
  text : Text
  nameMatches : List Text
  langMatches : List Text
  cbMatches : List LocatedMatch
  defMatches : List DefaultExprMatch
  menuResult : Option PythonMenuScriptResult
deriving DecidableEq

/-- `_get_callback_language`: the first callback-language match, if any. -/
def _get_callback_language (parm : ParmData) : Option Text :=
  parm.langMatches.head?

/-- `_get_script_callback`: the first located callback-script match, as
the script text and its block-relative span. -/
def _get_script_callback (parm : ParmData) : Option (Text × (Nat × Nat)) :=
  match parm.cbMatches with
  | [] => none
  | m :: _ => some (m.text, (m.start_pos, m.end_pos))

/-- `_get_default_python_expressions`: every default-expression match
whose language token is `python`, as expression text and span. -/
def _get_default_python_expressions (parm : ParmData) :
    List (Text × (Nat × Nat)) :=
  (parm.defMatches.filter (fun m => m.lang == ("python").toList)).map
    (fun m => (m.expr, (m.start_pos, m.end_pos)))

/-- `DialogScriptInternalItem.__init__`: the Python constructor indexes
`searchString(parm)[0][0]`, which raises when the `name` token is absent;
that failure is modelled as `none`. -/
def mkDialogScriptInternalItem (parm : ParmData) (code : Text)
    (start_offset end_offset : Int) (display_name : Text)
    (write_back : Bool) : Option DialogScriptInternalItem :=
  match parm.nameMatches with
  | [] => none
  | name :: _ =>
    some { parm := parm.text
           code := code
           start_offset := start_offset
           end_offset := end_offset
           name := name
           display_name := display_name ++ ("_").toList ++ name
           display_hint := []
           is_single_line := false
           write_back := write_back
           contents_changed := false
           post_processed_code := code
           kind := ItemKind.base }

/-- `DialogScriptCallbackItem.__init__`: offsets from the non-inclusive
span convention, then the base constructor, then the callback display hint
and the single-line flag. -/
def mkDialogScriptCallbackItem (parm : ParmData) (code : Text)
    (parm_start : Nat) (span : Nat × Nat) (display_name : Text)
    (write_back : Bool) : Option DialogScriptInternalItem :=
  let offsets :=
    _get_ds_file_offset (parm_start : Int) ((span.1 : Int), (span.2 : Int))
  (mkDialogScriptInternalItem parm code offsets.1 offsets.2 display_name
      write_back).map
    (fun it =>
      { it with
        display_hint := ("callback").toList
        is_single_line := true
        kind := ItemKind.callback })

/-- `DialogScriptDefaultExpressionItem.__init__`. -/
def mkDialogScriptDefaultExpressionItem (parm : ParmData) (code : Text)
    (parm_start : Nat) (span : Nat × Nat) (display_name : Text)
    (write_back : Bool) : Option DialogScriptInternalItem :=
  let offsets :=
    _get_ds_file_offset (parm_start : Int) ((span.1 : Int), (span.2 : Int))
  (mkDialogScriptInternalItem parm code offsets.1 offsets.2 display_name
      write_back).map
    (fun it =>
      { it with
        display_hint := ("default").toList
        is_single_line := true
        kind := ItemKind.defaultExpr })

/-- `DialogScriptMenuScriptItem.__init__`: offsets from the inclusive span
convention applied to the menu script data's span. -/
def mkDialogScriptMenuScriptItem (parm : ParmData) (parm_start : Nat)
    (display_name : Text) (menu_script_data : PythonMenuScriptResult)
    (write_back : Bool) : Option DialogScriptInternalItem :=
  let offsets :=
    _get_ds_file_offset (parm_start : Int)
      ((menu_script_data.span.1 : Int), (menu_script_data.span.2 : Int)) true
  (mkDialogScriptInternalItem parm menu_script_data.menu_script offsets.1
      offsets.2 display_name write_back).map
    (fun it =>
      { it with
        display_hint := ("menu_script").toList
        kind := ItemKind.menuScript menu_script_data })

/-- `_get_callback_items`: one callback item when the callback language is
`python` and a callback script match exists; none otherwise. -/
def _get_callback_items (parm : ParmData) (parm_start : Nat) (name : Text) :
    Option (List DialogScriptInternalItem) :=
  let callback_language := _get_callback_language parm
  if callback_language = some (("python").toList) then
    match _get_script_callback parm with
    | some (script, script_span) =>
      (mkDialogScriptCallbackItem parm script parm_start script_span name
          false).map (fun it => [it])
    | none => some []
  else some []

/-- `_get_expression_items`: one default-expression item per Python
default expression. -/
def _get_expression_items (parm : ParmData) (parm_start : Nat)
    (name : Text) : Option (List DialogScriptInternalItem) :=
  (_get_default_python_expressions parm).mapM
    (fun p =>
      mkDialogScriptDefaultExpressionItem parm p.1 parm_start p.2 name false)

/-- `_get_menu_items`: one menu script item when the parameter has a
Python menu script. -/
def _get_menu_items (parm : ParmData) (parm_start : Nat) (name : Text) :
    Option (List DialogScriptInternalItem) :=
  match parm.menuResult with
  | some menu_script =>
    (mkDialogScriptMenuScriptItem parm parm_start name menu_script
        false).map (fun it => [it])
  | none => some []

/-- The per-block body of `DialogScriptItem._gather_items`: callback items,
then expression items, then menu items, with a constructor failure
propagating. -/
def gatherParmItems (parm : ParmData) (parm_start : Nat) (name : Text) :
    Option (List DialogScriptInternalItem) := do
  let callback_items ← _get_callback_items parm parm_start name
  let expression_items ← _get_expression_items parm parm_start name
  let menu_items ← _get_menu_items parm parm_start name
  pure (callback_items ++ expression_items ++ menu_items)

/-- State of a `DialogScriptItem` container: the text currently stored in
the file at its path, the stashed `_ds_contents` read at construction, the
display name, and the `BaseItem` flags. -/
structure DialogScriptItem where
  file_text : Text
  ds_contents : Text
  name : Text
  write_back : Bool
  contents_changed : Bool
deriving DecidableEq

/-- `DialogScriptItem.__init__`: read the file and stash its contents;
`contents_changed` starts `False`. -/
def mkDialogScriptItem (fileText : Text) (name : Text)
    (write_back : Bool) : DialogScriptItem :=
  { file_text := fileText
    ds_contents := fileText
    name := name
    write_back := write_back
    contents_changed := false }

/-- The write-back propagation at the end of `_gather_items`: when the
container writes back, every gathered item's `write_back` flag is set. -/
def gatherItems (self : DialogScriptItem)
    (items : List DialogScriptInternalItem) :
    List DialogScriptInternalItem :=
  if self.write_back then items.map (fun it => { it with write_back := true })
  else items

/-- `DialogScriptItem.process`, with the gathered items passed in (the
pyparsing scan is abstract): process every item, fold the statuses with
bitwise or, collect the items whose contents changed, and when writing
back with at least one change, splice the changes into the stashed
contents and write the result to the file.  Returns the status, the new
container state, and the processed items. -/
def DialogScriptItem.process (self : DialogScriptItem) (runner : Collaborator)
    (gathered : List DialogScriptInternalItem) :
    Nat × DialogScriptItem × List DialogScriptInternalItem :=
  let files_to_process := gatherItems self gathered
  let processed := files_to_process.map (fun it => it.process runner)
  let result := (processed.map (fun p => p.1)).foldl (fun a b => a ||| b) 0
  let updated := processed.map (fun p => p.2)
  let items_with_changed_contents :=
    updated.filter (fun it => it.contents_changed)
  if self.write_back && !items_with_changed_contents.isEmpty then
    (result,
      { self with
        contents_changed := true
        file_text :=
          _handle_changed_contents self.ds_contents
            items_with_changed_contents },
      updated)
  else (result, self, updated)

/-- Concrete item builder used by witnesses and counterexamples. -/
def testItem (code post : Text) (s e : Int) (single wb changed : Bool) :
    DialogScriptInternalItem :=
  { parm := []
    code := code
    start_offset := s
    end_offset := e
    name := []
    display_name := []
    display_hint := []
    is_single_line := single
    write_back := wb
    contents_changed := changed
    post_processed_code := post
    kind := ItemKind.base }

/-- A parameter block with no `name` match and no optional structures. -/
def namelessEmptyParm : ParmData :=
  { text := []
    nameMatches := []
    langMatches := []
    cbMatches := []
    defMatches := []
    menuResult := none }

/-- A parameter block with parameter name `parm`, a Python callback
language tag and one located callback script match. -/
def sampleCallbackParm : ParmData :=
  { text := ("parm \x7b name \"parm\" \x7d").toList
    nameMatches := [("parm").toList]
    langMatches := [("python").toList]
    cbMatches := [{ start_pos := 3
                    text := ("return 1").toList
                    end_pos := 13 }]
    defMatches := []
    menuResult := none }

theorem pyBound_natCast (len a : Nat) (h : a ≤ len) :
    pyBound len (a : Int) = a := by
  simp [pyBound, h]

theorem pySlice_natCast (s : Text) (a b : Nat) (ha : a ≤ s.length)
    (hb : b ≤ s.length) :
    pySlice s (a : Int) (b : Int) = (s.take b).drop a := by
  simp [pySlice, pyBound_natCast _ _ ha, pyBound_natCast _ _ hb]

theorem pySliceFrom_natCast (s : Text) (a : Nat) (ha : a ≤ s.length) :
    pySliceFrom s (a : Int) = s.drop a := by
  simp [pySliceFrom, pyBound_natCast _ _ ha]

/-- C2: `_get_ds_file_offset` returns `(parm_start + a + 1, parm_start + b - 1)`
when `inclusive` is false (the default) and `(parm_start + a, parm_start + b)`
when `inclusive` is true; in particular span `(3, 10)` with block start `0`
gives `(4, 9)` non-inclusive and `(3, 10)` inclusive. -/
theorem ds_file_offset_spec (parm_start a b : Int) :
    _get_ds_file_offset parm_start (a, b) false =
      (parm_start + a + 1, parm_start + b - 1) ∧
    _get_ds_file_offset parm_start (a, b) true =
      (parm_start + a, parm_start + b) ∧
    _get_ds_file_offset parm_start (a, b) =
      _get_ds_file_offset parm_start (a, b) false ∧
    _get_ds_file_offset 0 (3, 10) false = (4, 9) ∧
    _get_ds_file_offset 0 (3, 10) true = (3, 10) := by
  refine ⟨rfl, by simp [_get_ds_file_offset], rfl, by decide, by decide⟩

/-- C1: with two changed fragments whose spans are in bounds, ordered and
non-adjacent, `_handle_changed_contents` sorts them by start offset and
assembles `prefix ++ replacement1 ++ middle ++ replacement2 ++ suffix`,
where prefix/middle/suffix are the exact original substrings outside the
spans — for either input order of the two fragments. -/
theorem splice_two_fragments (ds : Text) (it1 it2 : DialogScriptInternalItem)
    (s1 e1 s2 e2 : Nat)
    (h1s : it1.start_offset = (s1 : Int)) (h1e : it1.end_offset = (e1 : Int))
    (h2s : it2.start_offset = (s2 : Int)) (h2e : it2.end_offset = (e2 : Int))
    (hse1 : s1 ≤ e1) (hgap : e1 < s2) (hse2 : s2 ≤ e2)
    (hlen : e2 ≤ ds.length) :
    _handle_changed_contents ds [it1, it2] =
      ds.take s1 ++ it1.post_processed_code ++ (ds.take s2).drop e1 ++
        it2.post_processed_code ++ ds.drop e2 ∧
    _handle_changed_contents ds [it2, it1] =
      ds.take s1 ++ it1.post_processed_code ++ (ds.take s2).drop e1 ++
        it2.post_processed_code ++ ds.drop e2 := by
  have hs12 : (s1 : Int) < (s2 : Int) := by exact_mod_cast (by omega : s1 < s2)
  have le12 : it1.start_offset ≤ it2.start_offset := by
    rw [h1s, h2s]; exact le_of_lt hs12
  have not21 : ¬ it2.start_offset ≤ it1.start_offset := by
    rw [h1s, h2s]; exact not_le.mpr hs12
  have h0 : pySlice ds 0 ((s1 : Nat) : Int) = ds.take s1 := by
    have h := pySlice_natCast ds 0 s1 (Nat.zero_le _) (by omega)
    simpa using h
  have hmid : pySlice ds ((e1 : Nat) : Int) ((s2 : Nat) : Int) =
      (ds.take s2).drop e1 :=
    pySlice_natCast ds e1 s2 (by omega) (by omega)
  have hend : pySliceFrom ds ((e2 : Nat) : Int) = ds.drop e2 :=
    pySliceFrom_natCast ds e2 hlen
  have hsplice : spliceLoop ds 0 [it1, it2] =
      ds.take s1 ++ it1.post_processed_code ++ (ds.take s2).drop e1 ++
        it2.post_processed_code ++ ds.drop e2 := by
    simp only [spliceLoop, h1s, h1e, h2s, h2e, h0, hmid, hend,
      List.append_assoc]
  constructor
  · have hsort : sortByStart [it1, it2] = [it1, it2] := by
      simp [sortByStart, insertByStart, le12]
    rw [_handle_changed_contents, hsort, hsplice]
  · have hsort : sortByStart [it2, it1] = [it1, it2] := by
      simp [sortByStart, insertByStart, not21]
    rw [_handle_changed_contents, hsort, hsplice]

theorem splice_two_fragments_witness :
    (1 : Nat) ≤ 3 ∧ (3 : Nat) < 5 ∧ (5 : Nat) ≤ 7 ∧
      7 ≤ ("0123456789").toList.length ∧
    _handle_changed_contents ("0123456789").toList
        [testItem [] ("AB").toList 1 3 false false true,
         testItem [] ("CD").toList 5 7 false false true] =
      ("0123456789").toList.take 1 ++ ("AB").toList ++
        ((("0123456789").toList.take 5).drop 3) ++ ("CD").toList ++
        ("0123456789").toList.drop 7 :=
  ⟨by decide, by decide, by decide, by decide,
    (splice_two_fragments ("0123456789").toList
      (testItem [] ("AB").toList 1 3 false false true)
      (testItem [] ("CD").toList 5 7 false false true)
      1 3 5 7 rfl rfl rfl rfl (by decide) (by decide) (by decide)
      (by decide)).1⟩

theorem replaceChar_append (a b : Text) (c : Char) (r : Text) :
    replaceChar (a ++ b) c r = replaceChar a c r ++ replaceChar b c r := by
  induction a with
  | nil => rfl
  | cons x xs ih => simp [replaceChar, ih, List.append_assoc]

theorem escape_eq_bind (l : Text) :
    _escape_contents_for_single_line l = l.flatMap escCharSpec := by
  induction l with
  | nil => rfl
  | cons x xs ih =>
    have step : _escape_contents_for_single_line (x :: xs) =
        replaceChar
          (replaceChar (replaceChar [x] '\r' ("\\r").toList) '\n'
            ("\\n").toList) '"' ("\\\"").toList ++
          _escape_contents_for_single_line xs := by
      show replaceChar
          (replaceChar (replaceChar ([x] ++ xs) '\r' ("\\r").toList) '\n'
            ("\\n").toList) '"' ("\\\"").toList = _
      rw [replaceChar_append, replaceChar_append, replaceChar_append]
      rfl
    rw [step, ih]
    by_cases h1 : x = '\r'
    · subst h1; rfl
    by_cases h2 : x = '\n'
    · subst h2; rfl
    by_cases h3 : x = '"'
    · subst h3; rfl
    simp [replaceChar, escCharSpec, h1, h2, h3]

/-- C6: `_escape_contents_for_single_line` replaces each carriage return
with backslash-r, each newline with backslash-n and each double quote with
backslash-quote and leaves every other character unchanged; on the input
`foo\rbar\n"thing"` it yields `foo\\rbar\\n\\"thing\\"`; and
`_load_contents` applies the escaping to the reloaded contents exactly
when the item is single-line, which holds for constructed callback and
default-expression items and not for menu-script items. -/
theorem single_line_escaping_spec :
    (∀ l : Text, _escape_contents_for_single_line l = l.flatMap escCharSpec) ∧
    _escape_contents_for_single_line (("foo\rbar\n\"thing\"").toList) =
      ("foo\\rbar\\n\\\"thing\\\"").toList ∧
    (∀ (self : DialogScriptInternalItem) (t : Text),
      (self.is_single_line = true →
        self._load_contents t =
          _escape_contents_for_single_line
            (if endsWithNewline t then t.dropLast else t)) ∧
      (self.is_single_line = false →
        self._load_contents t =
          (if endsWithNewline t then t.dropLast else t))) ∧
    (∀ parm code parm_start span nm wb it,
      mkDialogScriptCallbackItem parm code parm_start span nm wb = some it →
      it.is_single_line = true) ∧
    (∀ parm code parm_start span nm wb it,
      mkDialogScriptDefaultExpressionItem parm code parm_start span nm wb =
        some it → it.is_single_line = true) ∧
    (∀ parm parm_start nm d wb it,
      mkDialogScriptMenuScriptItem parm parm_start nm d wb = some it →
      it.is_single_line = false) := by
  refine ⟨escape_eq_bind, by decide, ?_, ?_, ?_, ?_⟩
  · intro self t
    constructor
    · intro h; simp [DialogScriptInternalItem._load_contents, h]
    · intro h; simp [DialogScriptInternalItem._load_contents, h]
  · intro parm code parm_start span nm wb it hit
    cases hname : parm.nameMatches with
    | nil =>
      simp [mkDialogScriptCallbackItem, mkDialogScriptInternalItem,
        hname] at hit
    | cons pn pns =>
      simp [mkDialogScriptCallbackItem, mkDialogScriptInternalItem,
        hname] at hit
      rw [← hit]
  · intro parm code parm_start span nm wb it hit
    cases hname : parm.nameMatches with
    | nil =>
      simp [mkDialogScriptDefaultExpressionItem, mkDialogScriptInternalItem,
        hname] at hit
    | cons pn pns =>
      simp [mkDialogScriptDefaultExpressionItem, mkDialogScriptInternalItem,
        hname] at hit
      rw [← hit]
  · intro parm parm_start nm d wb it hit
    cases hname : parm.nameMatches with
    | nil =>
      simp [mkDialogScriptMenuScriptItem, mkDialogScriptInternalItem,
        hname] at hit
    | cons pn pns =>
      simp [mkDialogScriptMenuScriptItem, mkDialogScriptInternalItem,
        hname] at hit
      rw [← hit]

theorem single_line_escaping_witness :
    (mkDialogScriptCallbackItem sampleCallbackParm (("return 1").toList) 0
        (3, 13) ("op").toList false).map
      (fun it => it.is_single_line) = some true := by
  cases hm : mkDialogScriptCallbackItem sampleCallbackParm
      (("return 1").toList) 0 (3, 13) ("op").toList false with
  | none => exact absurd hm (by decide)
  | some it =>
    have h := single_line_escaping_spec.2.2.2.1 sampleCallbackParm
      (("return 1").toList) 0 (3, 13) ("op").toList false it hm
    simp [h]

set_option maxHeartbeats 1000000 in
theorem splitlinesAux_cons_nb (c : Char) (rest acc : Text)
    (h : isLineBoundary c = false) :
    splitlinesAux (c :: rest) acc = splitlinesAux rest (c :: acc) := by
  have hcr : c ≠ '\r' := by
    intro e
    rw [e] at h
    exact absurd h (by decide)
  rw [splitlinesAux.eq_3 acc c rest (fun r hc _ => absurd hc hcr)]
  simp [h]

theorem splitlinesAux_no_boundary (l : Text) :
    ∀ acc : Text, (∀ c ∈ l, isLineBoundary c = false) →
    (acc ≠ [] ∨ l ≠ []) →
    splitlinesAux l acc = [acc.reverse ++ l] := by
  induction l with
  | nil =>
    intro acc hb hne
    have hacc : acc ≠ [] := by
      rcases hne with h | h
      · exact h
      · exact absurd rfl h
    simp [splitlinesAux, hacc]
  | cons c rest ih =>
    intro acc hb hne
    have hc : isLineBoundary c = false := hb c (List.mem_cons_self c rest)
    rw [splitlinesAux_cons_nb c rest acc hc]
    have := ih (c :: acc) (fun d hd => hb d (List.mem_cons_of_mem c hd))
      (Or.inl (List.cons_ne_nil c acc))
    rw [this]
    simp

theorem splitlines_single (l : Text) (hne : l ≠ [])
    (hb : ∀ c ∈ l, isLineBoundary c = false) : splitlines l = [l] := by
  rw [splitlines, splitlinesAux_no_boundary l [] hb (Or.inr hne)]
  simp

theorem menuLineLoop_succ (indent : Text) (ls : List Text) :
    ∀ i : Nat, menuLineLoop indent (i + 1) ls =
      ls.flatMap (fun line => indent ++ wrapMenuLine line) := by
  induction ls with
  | nil => intro i; rfl
  | cons line rest ih =>
    intro i
    rw [menuLineLoop, ih (i + 1)]
    simp

/-- C7: menu-script re-encoding emits `[ "<line>" ]` plus a newline for
each line of the reloaded contents, where every line after the first is
prefixed by the stored indentation (the tab character repeated
indent-count times when `uses_tabs`, else the space character repeated),
the first line gets no prefix, and a one-line script yields exactly
`[ "<line>" ]` plus a newline with no leading indentation. -/
theorem menu_script_reencode_spec :
    (∀ (self : DialogScriptInternalItem) (data : PythonMenuScriptResult)
        (contents : Text), self.kind = ItemKind.menuScript data →
      self._post_process_contents contents =
        (match splitlines contents with
         | [] => []
         | l :: ls =>
           wrapMenuLine l ++
             ls.flatMap (fun line => indentText data ++ wrapMenuLine line))) ∧
    (∀ (self : DialogScriptInternalItem) (data : PythonMenuScriptResult)
        (line : Text), self.kind = ItemKind.menuScript data → line ≠ [] →
      (∀ c ∈ line, isLineBoundary c = false) →
      self._post_process_contents line = wrapMenuLine line) := by
  have main : ∀ (self : DialogScriptInternalItem)
      (data : PythonMenuScriptResult) (contents : Text),
      self.kind = ItemKind.menuScript data →
      self._post_process_contents contents =
        (match splitlines contents with
         | [] => []
         | l :: ls =>
           wrapMenuLine l ++
             ls.flatMap (fun line => indentText data ++ wrapMenuLine line)) := by
    intro self data contents hkind
    rw [DialogScriptInternalItem._post_process_contents, hkind]
    cases hs : splitlines contents with
    | nil => rfl
    | cons l ls =>
      simp only [menuLineLoop, menuLineLoop_succ (indentText data) ls 0]
      simp
  refine ⟨main, ?_⟩
  intro self data line hkind hne hb
  rw [main self data line hkind, splitlines_single line hne hb]
  simp

theorem menu_script_reencode_witness :
    ({ testItem [] [] 0 0 false true false with
        kind := ItemKind.menuScript ⟨("x").toList, (0, 0), 2, false⟩
      } : DialogScriptInternalItem)._post_process_contents
        (("abc").toList) = wrapMenuLine (("abc").toList) :=
  menu_script_reencode_spec.2
    { testItem [] [] 0 0 false true false with
      kind := ItemKind.menuScript ⟨("x").toList, (0, 0), 2, false⟩ }
    ⟨("x").toList, (0, 0), 2, false⟩ (("abc").toList) rfl (by decide)
    (by decide)

/-- C10: for a non-single-line item, loading the temp file contents right
after writing them returns the code exactly when the code does not end
with a newline; when the code ends with a newline the load strips that
final newline, so the reloaded contents differ from the code, and under
write-back `process` marks the item changed even when the collaborator
left the temp file untouched. -/
theorem write_load_roundtrip_spec (self : DialogScriptInternalItem)
    (hsl : self.is_single_line = false) :
    (self._load_contents self._write_contents = self.code ↔
      endsWithNewline self.code = false) ∧
    (endsWithNewline self.code = true →
      self._load_contents self._write_contents = self.code.dropLast ∧
      self._load_contents self._write_contents ≠ self.code) ∧
    (self.write_back = true →
      ∀ runner : Collaborator,
        (runner (tempFileName self) self._write_contents self).2 =
          self._write_contents →
        endsWithNewline self.code = true →
        (self.process runner).2.contents_changed = true) := by
  cases h : endsWithNewline self.code with
  | true =>
    have hne : self.code ≠ [] := by
      intro e
      rw [e] at h
      exact absurd h (by decide)
    have hload : self._load_contents self._write_contents =
        self.code.dropLast := by
      simp [DialogScriptInternalItem._load_contents,
        DialogScriptInternalItem._write_contents, h, hsl]
    have hneq : self.code.dropLast ≠ self.code := by
      intro e
      have hlen := congrArg List.length e
      rw [List.length_dropLast] at hlen
      have hpos : 0 < self.code.length := List.length_pos.mpr hne
      omega
    refine ⟨?_, ?_, ?_⟩
    · rw [hload]
      simp [hneq, h]
    · intro _
      exact ⟨hload, by rw [hload]; exact hneq⟩
    · intro hwb runner hrun _
      simp only [DialogScriptInternalItem.process, hwb, if_true]
      rw [hrun, hload]
      rw [if_pos (show self.code ≠ self.code.dropLast from
        fun e => hneq (Eq.symm e))]
  | false =>
    have hload : self._load_contents self._write_contents = self.code := by
      have hn : ¬ (self.code.getLast? = some '\n') := by
        simpa [endsWithNewline] using h
      simp [DialogScriptInternalItem._load_contents,
        DialogScriptInternalItem._write_contents, endsWithNewline, hn, hsl]
    refine ⟨?_, ?_, ?_⟩
    · rw [hload]
      simp [h]
    · intro hcontra
      exact absurd hcontra (by decide)
    · intro hwb runner hrun hcontra
      exact absurd hcontra (by decide)

theorem write_load_roundtrip_witness :
    ((testItem (("x\n").toList) (("x\n").toList) 0 0 false true
        false).process (fun _ c _ => (0, c))).2.contents_changed = true :=
  (write_load_roundtrip_spec
      (testItem (("x\n").toList) (("x\n").toList) 0 0 false true false)
      rfl).2.2 rfl (fun _ c _ => (0, c)) rfl rfl

/-- C5: for a block whose callback language is `python` and whose first
located callback-script match spans a quoted string lying inside the block
text, `_get_callback_items` yields exactly one callback item whose
absolute span lies fully within `[parm_start, parm_start + length block]`;
for a block whose callback language is absent or not `python`, it yields
zero items. -/
theorem callback_extraction_spec :
    (∀ (parm : ParmData) (parm_start : Nat) (nm : Text) (m : LocatedMatch)
        (mrest : List LocatedMatch) (pname : Text) (pnrest : List Text),
      parm.nameMatches = pname :: pnrest →
      _get_callback_language parm = some (("python").toList) →
      parm.cbMatches = m :: mrest →
      m.start_pos + 2 ≤ m.end_pos → m.end_pos ≤ parm.text.length →
      ∃ it, _get_callback_items parm parm_start nm = some [it] ∧
        (parm_start : Int) ≤ it.start_offset ∧
        it.start_offset ≤ it.end_offset ∧
        it.end_offset ≤ (parm_start : Int) + parm.text.length) ∧
    (∀ (parm : ParmData) (parm_start : Nat) (nm : Text),
      _get_callback_language parm ≠ some (("python").toList) →
      _get_callback_items parm parm_start nm = some []) := by
  constructor
  · intro parm parm_start nm m mrest pname pnrest hname hlang hcb hspan hlen
    have hsc : _get_script_callback parm =
        some (m.text, (m.start_pos, m.end_pos)) := by
      simp [_get_script_callback, hcb]
    rw [_get_callback_items]
    simp only [hlang, if_pos rfl, hsc, mkDialogScriptCallbackItem,
      mkDialogScriptInternalItem, hname, _get_ds_file_offset, Option.map_some]
    refine ⟨_, rfl, ?_, ?_, ?_⟩
    · simp only []
      omega
    · simp only []
      omega
    · simp only []
      omega
  · intro parm parm_start nm hlang
    rw [_get_callback_items]
    simp only [if_neg hlang]

theorem callback_extraction_witness :
    (_get_callback_items sampleCallbackParm 10 ("op").toList).map
      (fun l => l.length) = some 1 := by
  obtain ⟨it, hit, -, -, -⟩ := callback_extraction_spec.1 sampleCallbackParm
    10 ("op").toList
    { start_pos := 3, text := ("return 1").toList, end_pos := 13 } []
    (("parm").toList) [] rfl (by decide) rfl (by decide) (by decide)
  rw [hit]
  rfl

theorem mkInternal_none_of_no_name (parm : ParmData)
    (hname : parm.nameMatches = []) :
    ∀ code s e dn wb,
      mkDialogScriptInternalItem parm code s e dn wb = none := by
  intro code s e dn wb
  simp [mkDialogScriptInternalItem, hname]

/-- C8 counterexample: a parameter block with no `name` match but also no
optional structures is extracted without any error — `gatherParmItems`
returns an empty fragment list rather than failing. -/
theorem nameless_block_counterexample :
    namelessEmptyParm.nameMatches = [] ∧
    gatherParmItems namelessEmptyParm 0 [] = some [] ∧
    gatherParmItems namelessEmptyParm 0 [] ≠ none := by
  refine ⟨rfl, rfl, by decide⟩

/-- C8 (amended): a block with no `name` match fails extraction with an
unrecoverable error whenever it yields at least one fragment candidate (a
`python` callback script, a `python` default expression, or a menu
script); absence of optional structures is not an error and yields zero
fragments of that kind. -/
theorem nameless_block_spec :
    (∀ (parm : ParmData) (parm_start : Nat) (nm : Text),
      parm.nameMatches = [] →
      ((_get_callback_language parm = some (("python").toList) ∧
          parm.cbMatches ≠ []) ∨
        (∃ m ∈ parm.defMatches, m.lang = ("python").toList) ∨
        parm.menuResult ≠ none) →
      gatherParmItems parm parm_start nm = none) ∧
    (∀ (parm : ParmData) (parm_start : Nat) (nm : Text),
      _get_callback_language parm ≠ some (("python").toList) →
      _get_callback_items parm parm_start nm = some []) ∧
    (∀ (parm : ParmData) (parm_start : Nat) (nm : Text),
      (∀ m ∈ parm.defMatches, m.lang ≠ ("python").toList) →
      _get_expression_items parm parm_start nm = some []) ∧
    (∀ (parm : ParmData) (parm_start : Nat) (nm : Text),
      parm.menuResult = none →
      _get_menu_items parm parm_start nm = some []) := by
  refine ⟨?_, ?_, ?_, ?_⟩
  · intro parm parm_start nm hname hstruct
    have hmkb := mkInternal_none_of_no_name parm hname
    rcases hstruct with ⟨hlang, hcb⟩ | hexpr | hmenu
    · obtain ⟨m, mrest, hm⟩ : ∃ m mrest, parm.cbMatches = m :: mrest := by
        cases hc : parm.cbMatches with
        | nil => exact absurd hc hcb
        | cons a b => exact ⟨a, b, rfl⟩
      have hnone : _get_callback_items parm parm_start nm = none := by
        rw [_get_callback_items]
        simp [hlang, _get_script_callback, hm, mkDialogScriptCallbackItem,
          hmkb]
      simp [gatherParmItems, hnone]
    · have hexp : _get_expression_items parm parm_start nm = none := by
        obtain ⟨m, hmem, hml⟩ := hexpr
        have hmem2 : (m.expr, (m.start_pos, m.end_pos)) ∈
            _get_default_python_expressions parm := by
          rw [_get_default_python_expressions]
          exact List.mem_map_of_mem _
            (List.mem_filter.mpr ⟨hmem, by simp [hml]⟩)
        cases hd : _get_default_python_expressions parm with
        | nil => rw [hd] at hmem2; exact absurd hmem2 (List.not_mem_nil _)
        | cons p prest =>
          rw [_get_expression_items, hd]
          simp [List.mapM_cons, List.mapM.loop,
            mkDialogScriptDefaultExpressionItem, hmkb]
      cases hcbv : _get_callback_items parm parm_start nm with
      | none => simp [gatherParmItems, hcbv]
      | some l => simp [gatherParmItems, hcbv, hexp]
    · obtain ⟨d, hd⟩ : ∃ d, parm.menuResult = some d :=
        Option.ne_none_iff_exists'.mp hmenu
      have hmn : _get_menu_items parm parm_start nm = none := by
        rw [_get_menu_items]
        simp [hd, mkDialogScriptMenuScriptItem, hmkb]
      cases hcbv : _get_callback_items parm parm_start nm with
      | none => simp [gatherParmItems, hcbv]
      | some l =>
        cases hexv : _get_expression_items parm parm_start nm with
        | none => simp [gatherParmItems, hcbv, hexv]
        | some l2 => simp [gatherParmItems, hcbv, hexv, hmn]
  · intro parm parm_start nm hlang
    rw [_get_callback_items]
    simp only [if_neg hlang]
  · intro parm parm_start nm hall
    have hd : _get_default_python_expressions parm = [] := by
      rw [_get_default_python_expressions]
      rw [List.filter_eq_nil_iff.mpr (fun m hm => by simpa using hall m hm)]
      rfl
    rw [_get_expression_items, hd]
    rfl
  · intro parm parm_start nm hmenu
    rw [_get_menu_items]
    simp [hmenu]

theorem nameless_block_witness :
    gatherParmItems
      { namelessEmptyParm with
        langMatches := [("python").toList]
        cbMatches := [{ start_pos := 0, text := [], end_pos := 2 }] }
      0 [] = none :=
  nameless_block_spec.1
    { namelessEmptyParm with
      langMatches := [("python").toList]
      cbMatches := [{ start_pos := 0, text := [], end_pos := 2 }] }
    0 [] rfl (Or.inl ⟨rfl, by decide⟩)

/-- C9 counterexample: for base name `op`, parameter name `parm` and kind
suffix `callback`, the constructed item's display name is
`op_parm__callback` (double underscore before the kind suffix), not the
claimed `op_parm_callback` with single-underscore separators throughout. -/
theorem display_name_counterexample :
    (mkDialogScriptCallbackItem sampleCallbackParm (("return 1").toList) 0
        (3, 13) ("op").toList false).map displayName =
      some (("op_parm__callback").toList) ∧
    (mkDialogScriptCallbackItem sampleCallbackParm (("return 1").toList) 0
        (3, 13) ("op").toList false).map displayName ≠
      some ((("op" ++ "_" ++ "parm" ++ "_" ++ "callback")).toList) := by
  exact ⟨by decide, by decide⟩

/-- C9 (amended): a constructed fragment item with base name `B`,
parameter name `P` and kind suffix `S` in `{callback, default,
menu_script}` has display name `B ++ "_" ++ P ++ "__" ++ S` (a single
underscore between base and parameter name, a double underscore before the
kind suffix), and the temp file it materializes is named from this display
name with a `.py` extension. -/
theorem display_name_spec :
    (∀ (parm : ParmData) (code : Text) (parm_start : Nat) (span : Nat × Nat)
        (nm : Text) (wb : Bool) (it : DialogScriptInternalItem)
        (pname : Text) (pnrest : List Text),
      parm.nameMatches = pname :: pnrest →
      mkDialogScriptCallbackItem parm code parm_start span nm wb = some it →
      displayName it =
        nm ++ ("_").toList ++ pname ++ ("__").toList ++
          ("callback").toList ∧
      tempFileName it = displayName it ++ (".py").toList) ∧
    (∀ (parm : ParmData) (code : Text) (parm_start : Nat) (span : Nat × Nat)
        (nm : Text) (wb : Bool) (it : DialogScriptInternalItem)
        (pname : Text) (pnrest : List Text),
      parm.nameMatches = pname :: pnrest →
      mkDialogScriptDefaultExpressionItem parm code parm_start span nm wb =
        some it →
      displayName it =
        nm ++ ("_").toList ++ pname ++ ("__").toList ++
          ("default").toList ∧
      tempFileName it = displayName it ++ (".py").toList) ∧
    (∀ (parm : ParmData) (parm_start : Nat)
        (d : PythonMenuScriptResult) (nm : Text) (wb : Bool)
        (it : DialogScriptInternalItem) (pname : Text) (pnrest : List Text),
      parm.nameMatches = pname :: pnrest →
      mkDialogScriptMenuScriptItem parm parm_start nm d wb = some it →
      displayName it =
        nm ++ ("_").toList ++ pname ++ ("__").toList ++
          ("menu_script").toList ∧
      tempFileName it = displayName it ++ (".py").toList) := by
  refine ⟨?_, ?_, ?_⟩
  · intro parm code parm_start span nm wb it pname pnrest hname hit
    simp [mkDialogScriptCallbackItem, mkDialogScriptInternalItem,
      hname] at hit
    rw [← hit]
    refine ⟨?_, rfl⟩
    simp [displayName, List.append_assoc]
  · intro parm code parm_start span nm wb it pname pnrest hname hit
    simp [mkDialogScriptDefaultExpressionItem, mkDialogScriptInternalItem,
      hname] at hit
    rw [← hit]
    refine ⟨?_, rfl⟩
    simp [displayName, List.append_assoc]
  · intro parm parm_start d nm wb it pname pnrest hname hit
    simp [mkDialogScriptMenuScriptItem, mkDialogScriptInternalItem,
      hname] at hit
    rw [← hit]
    refine ⟨?_, rfl⟩
    simp [displayName, List.append_assoc]

theorem display_name_spec_witness :
    (mkDialogScriptDefaultExpressionItem sampleCallbackParm ("1").toList 0
        (1, 4) ("op").toList false).map displayName =
      some (("op_parm__default").toList) := by
  cases hm : mkDialogScriptDefaultExpressionItem sampleCallbackParm
      ("1").toList 0 (1, 4) ("op").toList false with
  | none => exact absurd hm (by decide)
  | some it =>
    have h := display_name_spec.2.1 sampleCallbackParm ("1").toList 0 (1, 4)
      ("op").toList false it (("parm").toList) [] rfl hm
    show some (displayName it) = some (("op_parm__default").toList)
    rw [h.1]
    decide

theorem lor_eq_zero_iff (m n : Nat) : m ||| n = 0 ↔ m = 0 ∧ n = 0 := by
  constructor
  · intro h
    constructor
    · apply Nat.eq_of_testBit_eq
      intro i
      have hb := congrArg (fun t => Nat.testBit t i) h
      simp only [Nat.testBit_lor] at hb
      simp only [Nat.zero_testBit]
      exact (Bool.or_eq_false_iff.mp (by simpa using hb)).1
    · apply Nat.eq_of_testBit_eq
      intro i
      have hb := congrArg (fun t => Nat.testBit t i) h
      simp only [Nat.testBit_lor] at hb
      simp only [Nat.zero_testBit]
      exact (Bool.or_eq_false_iff.mp (by simpa using hb)).2
  · rintro ⟨h1, h2⟩
    simp [h1, h2]

theorem foldl_lor_eq_zero (l : List Nat) :
    ∀ a : Nat, l.foldl (fun x y => x ||| y) a = 0 ↔
      a = 0 ∧ ∀ x ∈ l, x = 0 := by
  induction l with
  | nil => intro a; simp
  | cons x xs ih =>
    intro a
    rw [List.foldl_cons, ih (a ||| x), lor_eq_zero_iff]
    simp [List.forall_mem_cons, and_assoc]

theorem foldl_lor_ne_zero (l : List Nat) :
    l.foldl (fun x y => x ||| y) 0 ≠ 0 ↔ ∃ x ∈ l, x ≠ 0 := by
  rw [ne_eq, foldl_lor_eq_zero]
  simp

/-- C3: when no processed fragment's `contents_changed` flag is true, the
container's file text after `DialogScriptItem.process` is byte-identical
to its text before the call, and the container's `contents_changed` flag
remains false. -/
theorem roundtrip_identity (runner : Collaborator) (self : DialogScriptItem)
    (gathered : List DialogScriptInternalItem)
    (hflag : self.contents_changed = false)
    (hall : ∀ it ∈ (self.process runner gathered).2.2,
      it.contents_changed = false) :
    (self.process runner gathered).2.1.file_text = self.file_text ∧
    (self.process runner gathered).2.1.contents_changed = false := by
  have h22 : (self.process runner gathered).2.2 =
      ((gatherItems self gathered).map
        (fun it => it.process runner)).map (fun p => p.2) := by
    simp only [DialogScriptItem.process]
    split <;> rfl
  have hfil : (((gatherItems self gathered).map
      (fun it => it.process runner)).map (fun p => p.2)).filter
        (fun it => it.contents_changed) = [] := by
    apply List.filter_eq_nil_iff.mpr
    intro a ha
    have h := hall a (by rw [h22]; exact ha)
    simp [h]
  constructor
  · simp only [DialogScriptItem.process, hfil, List.isEmpty_nil,
      Bool.not_true, Bool.and_false, Bool.false_eq_true, if_false]
  · simp only [DialogScriptItem.process, hfil, List.isEmpty_nil,
      Bool.not_true, Bool.and_false, Bool.false_eq_true, if_false]
    exact hflag

theorem roundtrip_identity_witness :
    ((mkDialogScriptItem ("abc").toList ("n").toList true).process
        (fun _ c _ => (0, c)) []).2.1.file_text = ("abc").toList ∧
    ((mkDialogScriptItem ("abc").toList ("n").toList true).process
        (fun _ c _ => (0, c)) []).2.1.contents_changed = false :=
  roundtrip_identity (fun _ c _ => (0, c))
    (mkDialogScriptItem ("abc").toList ("n").toList true) [] rfl (by decide)

/-- C4: `DialogScriptItem.process` processes every gathered fragment (the
processed-items list is exactly the per-fragment `process` results, so a
failing fragment never prevents later fragments from being processed),
its status is non-zero exactly when at least one fragment's status is
non-zero, and under write-back the container is rewritten with the spliced
text and marked changed whenever any fragment changed, with no condition
on the statuses. -/
theorem aggregate_status_spec (runner : Collaborator)
    (self : DialogScriptItem) (gathered : List DialogScriptInternalItem) :
    (self.process runner gathered).2.2 =
      (gatherItems self gathered).map (fun it => (it.process runner).2) ∧
    ((self.process runner gathered).1 ≠ 0 ↔
      ∃ it ∈ gatherItems self gathered, (it.process runner).1 ≠ 0) ∧
    (self.write_back = true →
      (∃ it ∈ (self.process runner gathered).2.2,
        it.contents_changed = true) →
      (self.process runner gathered).2.1.contents_changed = true ∧
      (self.process runner gathered).2.1.file_text =
        _handle_changed_contents self.ds_contents
          (((self.process runner gathered).2.2).filter
            (fun it => it.contents_changed))) := by
  have h22 : (self.process runner gathered).2.2 =
      ((gatherItems self gathered).map
        (fun it => it.process runner)).map (fun p => p.2) := by
    simp only [DialogScriptItem.process]
    split <;> rfl
  refine ⟨?_, ?_, ?_⟩
  · rw [h22, List.map_map]
    rfl
  · have h1 : (self.process runner gathered).1 =
        (((gatherItems self gathered).map
          (fun it => it.process runner)).map (fun p => p.1)).foldl
            (fun a b => a ||| b) 0 := by
      simp only [DialogScriptItem.process]
      split <;> rfl
    rw [h1, List.map_map, foldl_lor_ne_zero]
    constructor
    · rintro ⟨x, hx, hne⟩
      obtain ⟨it, hit, rfl⟩ := List.mem_map.mp hx
      exact ⟨it, hit, hne⟩
    · rintro ⟨it, hit, hne⟩
      exact ⟨_, List.mem_map.mpr ⟨it, hit, rfl⟩, hne⟩
  · intro hwb hex
    obtain ⟨it, hit, hch⟩ := hex
    have hmem : it ∈ (((gatherItems self gathered).map
        (fun it => it.process runner)).map (fun p => p.2)).filter
          (fun it => it.contents_changed) := by
      apply List.mem_filter.mpr
      exact ⟨by rw [← h22]; exact hit, by simp [hch]⟩
    have hfe : ((((gatherItems self gathered).map
        (fun it => it.process runner)).map (fun p => p.2)).filter
          (fun it => it.contents_changed)).isEmpty = false := by
      cases hf : (((gatherItems self gathered).map
          (fun it => it.process runner)).map (fun p => p.2)).filter
            (fun it => it.contents_changed) with
      | nil => rw [hf] at hmem; exact absurd hmem (List.not_mem_nil _)
      | cons a l => rfl
    constructor
    · simp only [DialogScriptItem.process, hfe, hwb, Bool.not_false,
        Bool.and_true, if_true]
    · simp only [DialogScriptItem.process, hfe, hwb, Bool.not_false,
        Bool.and_true, if_true]

theorem aggregate_status_witness :
    ((mkDialogScriptItem ("0123456789").toList ("n").toList true).process
        (fun _ c _ => (7, c))
        [testItem (("x\n").toList) (("x\n").toList) 1 3 false false
          false]).2.1.contents_changed = true :=
  (aggregate_status_spec (fun _ c _ => (7, c))
      (mkDialogScriptItem ("0123456789").toList ("n").toList true)
      [testItem (("x\n").toList) (("x\n").toList) 1 3 false false
        false]).2.2 rfl (by decide) |>.1
